import Mathlib

/-!
Verification of the voice-command interpretation and dispatch pipeline of the
serenade-whisperai repository: the pattern table and matcher of
`src/core/commands/command_parser.py` and the orchestration of
`src/core/commands/command_processor.py`, shallowly embedded in Lean.

The regular expressions in the pattern table use only literal text, `(\d+)`,
`(.+)` and `(up|down)` groups, compiled with `re.IGNORECASE` and applied with
`Pattern.match` (anchored at the start of the string, no end anchor).  We embed
each pattern as a list of tokens and give the matcher Python's leftmost-greedy
backtracking semantics over that token language.
-/

set_option autoImplicit false

namespace Serenade

/-- A component of one compiled regex pattern from `CommandParser.PATTERNS`:
literal text, a `(\d+)` group, a `(.+)` group (any char except newline,
greedy), or an alternation group such as `(up|down)`. -/
inductive Token where
  | lit (s : List Char)
  | digits
  | anyPlus
  | alt (alts : List (List Char))
deriving DecidableEq, Repr

/-- `first f l` returns the first `some` value of `f` over `l` — the
backtracking search order of the regex engine. -/
def first {α β : Type} (f : α → Option β) : List α → Option β
  | [] => none
  | x :: xs =>
    match f x with
    | some b => some b
    | none => first f xs

/-- All splits of `cs` into a nonempty prefix and the remaining suffix,
longest prefix first — the order in which a greedy quantifier tries to
consume input. -/
def splits (cs : List Char) : List (List Char × List Char) :=
  (List.range cs.length).map fun k => (cs.take (cs.length - k), cs.drop (cs.length - k))

/-- Anchored match of a token sequence against `cs`, Python `Pattern.match`
semantics: the whole token list must match some prefix of `cs` (trailing
input is ignored), groups are greedy with backtracking, alternatives are
tried left to right.  Returns the list of captured groups on success. -/
def matchTokens : List Token → List Char → Option (List String)
  | [], _ => some []
  | Token.lit s :: ts, cs =>
    if s.isPrefixOf cs then matchTokens ts (cs.drop s.length) else none
  | Token.digits :: ts, cs =>
    first (fun pr =>
      if pr.1 ≠ [] ∧ pr.1.all Char.isDigit then
        (matchTokens ts pr.2).map fun caps => String.mk pr.1 :: caps
      else none) (splits cs)
  | Token.anyPlus :: ts, cs =>
    first (fun pr =>
      if pr.1 ≠ [] ∧ pr.1.all (fun c => c ≠ '\n') then
        (matchTokens ts pr.2).map fun caps => String.mk pr.1 :: caps
      else none) (splits cs)
  | Token.alt alts :: ts, cs =>
    first (fun a =>
      if a.isPrefixOf cs then
        (matchTokens ts (cs.drop a.length)).map fun caps => String.mk a :: caps
      else none) alts

/-- The `param_type` field of a `PATTERNS` entry: `None`, `'target'`,
`'value'`, `'line_number'` or `'target_value'` in the Python source. -/
inductive ParamType where
  | noneP
  | target
  | value
  | lineNumber
  | targetValue
deriving DecidableEq, Repr

/-- One compiled entry of `CommandParser.compiled_patterns`:
(compiled pattern, action, param_type). -/
abbrev Entry := List Token × String × ParamType

/-- `ParsedCommand` from `command_parser.py`: action plus optional target,
value and line number, and the (always empty after parsing) `parameters`
mapping. -/
structure ParsedCommand where
  action : String
  target : Option String := none
  value : Option String := none
  line_number : Option Nat := none
  parameters : List (String × String) := []
deriving DecidableEq, Repr

/-- `CommandParser.PATTERNS` in source order (a Python dict preserves
insertion order; all keys are distinct). -/
def PATTERNS : List Entry := [
  -- Navigation
  ([Token.lit "go to line ".toList, Token.digits], "goto_line", ParamType.lineNumber),
  ([Token.lit "go to function ".toList, Token.anyPlus], "goto_function", ParamType.target),
  ([Token.lit "go to class ".toList, Token.anyPlus], "goto_class", ParamType.target),
  ([Token.lit "go to method ".toList, Token.anyPlus], "goto_method", ParamType.target),
  ([Token.lit "next function".toList], "next_function", ParamType.noneP),
  ([Token.lit "previous function".toList], "prev_function", ParamType.noneP),
  ([Token.lit "next line".toList], "next_line", ParamType.noneP),
  ([Token.lit "previous line".toList], "prev_line", ParamType.noneP),
  ([Token.lit "scroll ".toList, Token.alt ["up".toList, "down".toList]], "scroll", ParamType.target),
  ([Token.lit "page ".toList, Token.alt ["up".toList, "down".toList]], "page", ParamType.target),
  -- Editing
  ([Token.lit "add function ".toList, Token.anyPlus], "add_function", ParamType.target),
  ([Token.lit "add class ".toList, Token.anyPlus], "add_class", ParamType.target),
  ([Token.lit "add method ".toList, Token.anyPlus], "add_method", ParamType.target),
  ([Token.lit "create function ".toList, Token.anyPlus], "add_function", ParamType.target),
  ([Token.lit "create class ".toList, Token.anyPlus], "add_class", ParamType.target),
  ([Token.lit "delete line".toList], "delete_line", ParamType.noneP),
  ([Token.lit "delete function ".toList, Token.anyPlus], "delete_function", ParamType.target),
  ([Token.lit "delete class ".toList, Token.anyPlus], "delete_class", ParamType.target),
  ([Token.lit "remove line".toList], "delete_line", ParamType.noneP),
  ([Token.lit "insert ".toList, Token.anyPlus], "insert", ParamType.value),
  ([Token.lit "type ".toList, Token.anyPlus], "type", ParamType.value),
  ([Token.lit "add comment ".toList, Token.anyPlus], "add_comment", ParamType.value),
  -- Selection
  ([Token.lit "select line ".toList, Token.digits], "select_line", ParamType.lineNumber),
  ([Token.lit "select function ".toList, Token.anyPlus], "select_function", ParamType.target),
  ([Token.lit "select class ".toList, Token.anyPlus], "select_class", ParamType.target),
  ([Token.lit "select all".toList], "select_all", ParamType.noneP),
  ([Token.lit "select word".toList], "select_word", ParamType.noneP),
  ([Token.lit "select line".toList], "select_current_line", ParamType.noneP),
  -- Change/Replace
  ([Token.lit "change ".toList, Token.anyPlus, Token.lit " to ".toList, Token.anyPlus], "change", ParamType.targetValue),
  ([Token.lit "rename ".toList, Token.anyPlus, Token.lit " to ".toList, Token.anyPlus], "rename", ParamType.targetValue),
  ([Token.lit "replace ".toList, Token.anyPlus, Token.lit " with ".toList, Token.anyPlus], "replace", ParamType.targetValue),
  -- Clipboard
  ([Token.lit "copy".toList], "copy", ParamType.noneP),
  ([Token.lit "cut".toList], "cut", ParamType.noneP),
  ([Token.lit "paste".toList], "paste", ParamType.noneP),
  ([Token.lit "duplicate line".toList], "duplicate_line", ParamType.noneP),
  ([Token.lit "copy line".toList], "copy_line", ParamType.noneP),
  -- Undo/Redo
  ([Token.lit "undo".toList], "undo", ParamType.noneP),
  ([Token.lit "redo".toList], "redo", ParamType.noneP),
  -- Save/Open
  ([Token.lit "save file".toList], "save", ParamType.noneP),
  ([Token.lit "save".toList], "save", ParamType.noneP),
  ([Token.lit "save as ".toList, Token.anyPlus], "save_as", ParamType.value),
  ([Token.lit "open file ".toList, Token.anyPlus], "open_file", ParamType.value),
  ([Token.lit "close file".toList], "close_file", ParamType.noneP),
  ([Token.lit "new file".toList], "new_file", ParamType.noneP),
  -- Search/Find
  ([Token.lit "find ".toList, Token.anyPlus], "find", ParamType.value),
  ([Token.lit "search ".toList, Token.anyPlus], "search", ParamType.value),
  ([Token.lit "find next".toList], "find_next", ParamType.noneP),
  ([Token.lit "find previous".toList], "find_previous", ParamType.noneP),
  -- Format
  ([Token.lit "format document".toList], "format_document", ParamType.noneP),
  ([Token.lit "format selection".toList], "format_selection", ParamType.noneP),
  ([Token.lit "indent".toList], "indent", ParamType.noneP),
  ([Token.lit "unindent".toList], "unindent", ParamType.noneP),
  ([Token.lit "comment out".toList], "comment_out", ParamType.noneP),
  ([Token.lit "uncomment".toList], "uncomment", ParamType.noneP)]

/-- `text.strip().lower()` from the Python source: trim surrounding
whitespace, then lower-case (ASCII) every character. -/
def normalize (s : String) : String :=
  String.mk ((((s.toList.dropWhile Char.isWhitespace).reverse.dropWhile
    Char.isWhitespace).reverse).map Char.toLower)

/-- `int(text)` as applied to a `(\d+)` capture: the capture is a nonempty
string of decimal digits and converts to the base-10 non-negative integer it
spells; on any other string the conversion raises `ValueError`, modelled as
`none`.  (Python's `int()` also tolerates signs, surrounding whitespace and
digit-group underscores, but a `(\d+)` capture can contain none of those, so
the two conversions agree on every string the parser ever converts.) -/
def toInt? (s : String) : Option Nat :=
  if s.toList ≠ [] ∧ s.toList.all Char.isDigit then
    some (s.toList.foldl (fun n c => n * 10 + (c.toNat - '0'.toNat)) 0)
  else none

/-- The body of the `if match:` block of `CommandParser.parse`: build a
`ParsedCommand` from the matched entry's action, its `param_type` and the
captured groups.  Returns `none` exactly when a `line_number` capture fails
integer conversion (the `except ValueError: return None` branch). -/
def buildCommand (action : String) (pt : ParamType) (caps : List String) :
    Option ParsedCommand :=
  match pt, caps with
  | ParamType.target, c :: _ => some { action := action, target := some c }
  | ParamType.value, c :: _ => some { action := action, value := some c }
  | ParamType.lineNumber, c :: _ =>
    match toInt? c with
    | some n => some { action := action, line_number := some n }
    | none => none
  | ParamType.targetValue, c₁ :: c₂ :: _ =>
    some { action := action, target := some c₁, value := some c₂ }
  | _, _ => some { action := action }

/-- The pattern loop of `CommandParser.parse`: try entries in table order,
return the command built from the first entry whose pattern matches. -/
def parseGo : List Entry → List Char → Option ParsedCommand
  | [], _ => none
  | (pat, act, pt) :: rest, cs =>
    match matchTokens pat cs with
    | some caps => buildCommand act pt caps
    | none => parseGo rest cs

/-- `CommandParser.parse`: normalize the text, then run the pattern loop. -/
def parse (text : String) : Option ParsedCommand :=
  parseGo PATTERNS (normalize text).toList

example : parse "undo" = some { action := "undo" } := by decide

/-- `CommandResult` from `command_processor.py`: success flag, originating
(normalized) command text, optional action, optional error message, optional
structured data payload (a dict in Python, modelled as an association
list). -/
structure CommandResult where
  success : Bool
  command : String
  action : Option String := none
  error : Option String := none
  data : Option (List (String × String)) := none
deriving DecidableEq, Repr

/-- Which of the two optional callback slots of the `CommandProcessor` are
registered (`on_command_executed` / `on_command_error` are `Optional` and
default to `None`). -/
structure Callbacks where
  onExecuted : Bool
  onError : Bool
deriving DecidableEq, Repr

/-- Observable actions performed by one `process_command` call, in program
order: invoking the parser, invoking the executor, assigning
`self.last_command`, awaiting the success callback, awaiting the error
callback. -/
inductive Event where
  | parseCall (text : String)
  | execCall (cmd : ParsedCommand)
  | setLast (text : String)
  | cbSuccess (command : String) (data : List (String × String))
  | cbError (command : String) (message : String)
deriving DecidableEq, Repr

/-- Python's `x or default` on an `Optional[str]`: both `None` and the empty
string are falsy, so either one yields the default. -/
def pyOrStr (o : Option String) (d : String) : String :=
  match o with
  | none => d
  | some s => if s = "" then d else s

/-- Python's `x or default` on an `Optional[dict]`: both `None` and the
empty dict are falsy, so either one yields the default. -/
def pyOrDict (o : Option (List (String × String))) (d : List (String × String)) :
    List (String × String) :=
  match o with
  | none => d
  | some l => if l = [] then d else l

/-- `CommandProcessor.process_command`, generic over the parser and executor
calls so that a raising parser or executor (`Except.error`) can be modelled:
the `try`/`except` of the Python source catches any exception from either
and returns `CommandResult(success=False, command=transcription,
error=str(e))`.  Returns the command result, the new `last_command` value,
and the ordered list of observable events. -/
def processCommandG (parseFn : String → Except String (Option ParsedCommand))
    (execFn : ParsedCommand → Except String CommandResult)
    (cbs : Callbacks) (lastCommand : Option String) (transcription : String) :
    CommandResult × Option String × List Event :=
  let t := normalize transcription
  if t = "" then
    ({ success := false, command := "", error := some "Empty transcription" },
      lastCommand, [])
  else
    match parseFn t with
    | Except.error e =>
      ({ success := false, command := t, error := some e }, lastCommand,
        [Event.parseCall t])
    | Except.ok none =>
      ({ success := false, command := t, error := some "Command not recognized" },
        lastCommand, [Event.parseCall t])
    | Except.ok (some parsed) =>
      match execFn parsed with
      | Except.error e =>
        ({ success := false, command := t, error := some e }, lastCommand,
          [Event.parseCall t, Event.execCall parsed])
      | Except.ok result =>
        let cbEvents :=
          if result.success && cbs.onExecuted then
            [Event.cbSuccess t (pyOrDict result.data [])]
          else if !result.success && cbs.onError then
            [Event.cbError t (pyOrStr result.error "Unknown error")]
          else []
        (result, some t,
          [Event.parseCall t, Event.execCall parsed, Event.setLast t] ++ cbEvents)

/-- `CommandProcessor.process_command` with the actual (non-raising)
`CommandParser.parse`, still generic over the executor, whose concrete
implementation is an external collaborator. -/
def processCommand (execFn : ParsedCommand → Except String CommandResult)
    (cbs : Callbacks) (lastCommand : Option String) (transcription : String) :
    CommandResult × Option String × List Event :=
  processCommandG (fun s => Except.ok (parse s)) execFn cbs lastCommand transcription

/-! ### Helper lemmas about the matcher -/

theorem first_isSome_iff {α β : Type} (f : α → Option β) (l : List α) :
    (first f l).isSome = true ↔ ∃ x ∈ l, (f x).isSome = true := by
  induction l with
  | nil => simp [first]
  | cons a l ih =>
    simp only [first]
    cases h : f a with
    | some b => simp [h]
    | none =>
      simp only [ih, List.mem_cons]
      constructor
      · rintro ⟨x, hx, hfx⟩
        exact ⟨x, Or.inr hx, hfx⟩
      · rintro ⟨x, hx | hx, hfx⟩
        · rw [hx, h] at hfx
          exact absurd hfx (by simp)
        · exact ⟨x, hx, hfx⟩

theorem drop_append_of_le_len {α : Type} :
    ∀ (n : Nat) (l s : List α), n ≤ l.length → (l ++ s).drop n = l.drop n ++ s := by
  intro n
  induction n with
  | zero => intro l s _; simp
  | succ n ih =>
    intro l s h
    cases l with
    | nil => simp at h
    | cons a l => simpa using ih l s (by simpa using h)

theorem isPrefixOf_length_le {α : Type} [DecidableEq α] :
    ∀ (p l : List α), p.isPrefixOf l = true → p.length ≤ l.length := by
  intro p
  induction p with
  | nil => intro l _; simp
  | cons a p ih =>
    intro l h
    cases l with
    | nil => simp [List.isPrefixOf] at h
    | cons b l =>
      simp only [List.isPrefixOf, Bool.and_eq_true] at h
      simpa using ih l h.2

theorem isPrefixOf_append_right {α : Type} [DecidableEq α] :
    ∀ (p l s : List α), p.isPrefixOf l = true → p.isPrefixOf (l ++ s) = true := by
  intro p
  induction p with
  | nil => intro l s _; simp [List.isPrefixOf]
  | cons a p ih =>
    intro l s h
    cases l with
    | nil => simp [List.isPrefixOf] at h
    | cons b l =>
      simp only [List.isPrefixOf, Bool.and_eq_true] at h ⊢
      exact ⟨h.1, ih l s h.2⟩

theorem mem_splits_iff (cs : List Char) (p r : List Char) :
    (p, r) ∈ splits cs ↔ p ≠ [] ∧ p ++ r = cs := by
  unfold splits
  simp only [List.mem_map, List.mem_range, Prod.mk.injEq]
  constructor
  · rintro ⟨k, hk, hp, hr⟩
    subst hp; subst hr
    refine ⟨?_, List.take_append_drop _ _⟩
    have hlen : (cs.take (cs.length - k)).length = min (cs.length - k) cs.length :=
      List.length_take _ _
    have hpos : 0 < (cs.take (cs.length - k)).length := by omega
    intro hnil
    rw [hnil] at hpos
    simp at hpos
  · rintro ⟨hne, rfl⟩
    have hplen : 0 < p.length := List.length_pos.mpr hne
    have happ : (p ++ r).length = p.length + r.length := List.length_append p r
    have hsub : (p ++ r).length - ((p ++ r).length - p.length) = p.length := by omega
    refine ⟨(p ++ r).length - p.length, by omega, ?_, ?_⟩
    · rw [hsub]
      exact List.take_left p r
    · rw [hsub]
      exact List.drop_left p r

/-- Matching has no end anchor: appending trailing input to a matching
string keeps the pattern matching. -/
theorem matchTokens_isSome_append (toks : List Token) :
    ∀ (cs s : List Char), (matchTokens toks cs).isSome = true →
      (matchTokens toks (cs ++ s)).isSome = true := by
  induction toks with
  | nil => intro cs s _; simp [matchTokens]
  | cons t ts ih =>
    intro cs s h
    cases t with
    | lit l =>
      simp only [matchTokens] at h ⊢
      by_cases hpre : l.isPrefixOf cs = true
      · rw [hpre, if_pos rfl] at h
        rw [isPrefixOf_append_right l cs s hpre, if_pos rfl]
        rw [drop_append_of_le_len l.length cs s (isPrefixOf_length_le l cs hpre)]
        exact ih _ s h
      · rw [if_neg (by simpa using hpre)] at h
        simp at h
    | digits =>
      simp only [matchTokens] at h ⊢
      rw [first_isSome_iff] at h ⊢
      obtain ⟨⟨p, r⟩, hmem, hf⟩ := h
      rw [mem_splits_iff] at hmem
      by_cases hc : p ≠ [] ∧ p.all Char.isDigit
      · rw [if_pos hc] at hf
        refine ⟨(p, r ++ s), ?_, ?_⟩
        · rw [mem_splits_iff]
          exact ⟨hmem.1, by rw [← List.append_assoc, hmem.2]⟩
        · rw [if_pos hc]
          simp only [Option.isSome_map'] at hf ⊢
          exact ih r s hf
      · rw [if_neg hc] at hf
        simp at hf
    | anyPlus =>
      simp only [matchTokens] at h ⊢
      rw [first_isSome_iff] at h ⊢
      obtain ⟨⟨p, r⟩, hmem, hf⟩ := h
      rw [mem_splits_iff] at hmem
      by_cases hc : p ≠ [] ∧ p.all (fun c => c ≠ '\n')
      · rw [if_pos hc] at hf
        refine ⟨(p, r ++ s), ?_, ?_⟩
        · rw [mem_splits_iff]
          exact ⟨hmem.1, by rw [← List.append_assoc, hmem.2]⟩
        · rw [if_pos hc]
          simp only [Option.isSome_map'] at hf ⊢
          exact ih r s hf
      · rw [if_neg hc] at hf
        simp at hf
    | alt alts =>
      simp only [matchTokens] at h ⊢
      rw [first_isSome_iff] at h ⊢
      obtain ⟨a, hmem, hf⟩ := h
      by_cases hpre : a.isPrefixOf cs = true
      · rw [if_pos hpre] at hf
        refine ⟨a, hmem, ?_⟩
        rw [if_pos (isPrefixOf_append_right a cs s hpre)]
        rw [drop_append_of_le_len a.length cs s (isPrefixOf_length_le a cs hpre)]
        simp only [Option.isSome_map'] at hf ⊢
        exact ih _ s hf
      · rw [if_neg hpre] at hf
        simp at hf

/-- Parsed Command field invariant from §3 of the specification: at most one
of \x7btarget alone, value alone, line_number, both target and value\x7d is
populated, and the `parameters` mapping is empty. -/
def ShapeOK (cmd : ParsedCommand) : Prop :=
  cmd.parameters = [] ∧
  ((cmd.target = none ∧ cmd.value = none ∧ cmd.line_number = none) ∨
   (cmd.target ≠ none ∧ cmd.value = none ∧ cmd.line_number = none) ∨
   (cmd.target = none ∧ cmd.value ≠ none ∧ cmd.line_number = none) ∨
   (cmd.target = none ∧ cmd.value = none ∧ cmd.line_number ≠ none) ∨
   (cmd.target ≠ none ∧ cmd.value ≠ none ∧ cmd.line_number = none))

theorem buildCommand_shape (act : String) (pt : ParamType) (caps : List String)
    (cmd : ParsedCommand) (h : buildCommand act pt caps = some cmd) :
    ShapeOK cmd := by
  unfold buildCommand at h
  split at h
  · injection h with h; subst h; simp [ShapeOK]
  · injection h with h; subst h; simp [ShapeOK]
  · split at h
    · injection h with h; subst h; simp [ShapeOK]
    · exact absurd h (by simp)
  · injection h with h; subst h; simp [ShapeOK]
  · injection h with h; subst h; simp [ShapeOK]

theorem parseGo_shape (ents : List Entry) (cs : List Char) (cmd : ParsedCommand)
    (h : parseGo ents cs = some cmd) : ShapeOK cmd := by
  induction ents with
  | nil => simp [parseGo] at h
  | cons e rest ih =>
    obtain ⟨pat, act, pt⟩ := e
    simp only [parseGo] at h
    split at h
    · exact buildCommand_shape act pt _ cmd h
    · exact ih h

theorem parse_nil : parse "" = none := by decide

/-- Entries whose patterns do not match are skipped by the pattern loop. -/
theorem parseGo_append_of_none (pre rest : List Entry) (cs : List Char)
    (h : ∀ e ∈ pre, matchTokens e.1 cs = none) :
    parseGo (pre ++ rest) cs = parseGo rest cs := by
  induction pre with
  | nil => rfl
  | cons e pre ih =>
    obtain ⟨pat, act, pt⟩ := e
    have he : matchTokens pat cs = none := h _ (List.mem_cons_self _ _)
    simp only [List.cons_append, parseGo, he]
    exact ih fun e' he' => h e' (List.mem_cons_of_mem _ he')

/-! ### The claims -/

/-- C1: for every input transcript, `process_command` never raises — any
failure raised by the parser or the executor (modelled as `Except.error`) is
caught at the processor boundary and converted into a `CommandResult` with
`success = false` whose `error` field carries the failure's message.  In the
embedding `processCommandG` is a total function into `CommandResult × _`, so
no exception can propagate past it; this theorem shows the two raising paths
are converted exactly as claimed. -/
theorem c1_failures_converted_at_boundary
    (parseFn : String → Except String (Option ParsedCommand))
    (execFn : ParsedCommand → Except String CommandResult)
    (cbs : Callbacks) (last : Option String) (transcription : String) :
    (∀ e, normalize transcription ≠ "" →
      parseFn (normalize transcription) = Except.error e →
      (processCommandG parseFn execFn cbs last transcription).1 =
        { success := false, command := normalize transcription, error := some e }) ∧
    (∀ p e, normalize transcription ≠ "" →
      parseFn (normalize transcription) = Except.ok (some p) →
      execFn p = Except.error e →
      (processCommandG parseFn execFn cbs last transcription).1 =
        { success := false, command := normalize transcription, error := some e }) := by
  constructor
  · intro e hne hp
    simp only [processCommandG]
    rw [if_neg hne, hp]
  · intro p e hne hp he
    simp only [processCommandG]
    rw [if_neg hne, hp]
    dsimp only
    rw [he]

theorem c1_witness :
    (processCommandG (fun _ => Except.error "boom")
      (fun _ => Except.ok { success := true, command := "undo" })
      { onExecuted := false, onError := false } none "undo").1 =
      { success := false, command := normalize "undo", error := some "boom" } :=
  (c1_failures_converted_at_boundary (fun _ => Except.error "boom")
    (fun _ => Except.ok { success := true, command := "undo" })
    { onExecuted := false, onError := false } none "undo").1 "boom" (by decide) rfl

/-- C2: pattern matching uses the first entry in table-definition order that
matches, not the longest or most specific one; in particular the utterance
"save as notes.txt" parses to action `save` (the entry "save" comes before
"save as (.+)" in `PATTERNS`), not `save_as`. -/
theorem c2_first_match_in_table_order :
    (∀ (pre post : List Entry) (pat : List Token) (act : String) (pt : ParamType)
      (cs : List Char) (caps : List String),
      (∀ e ∈ pre, matchTokens e.1 cs = none) →
      matchTokens pat cs = some caps →
      parseGo (pre ++ (pat, act, pt) :: post) cs = buildCommand act pt caps) ∧
    parse "save as notes.txt" = some { action := "save" } := by
  constructor
  · intro pre post pat act pt cs caps hpre hm
    rw [parseGo_append_of_none pre _ cs hpre]
    simp only [parseGo]
    rw [hm]
  · decide

theorem c2_witness :
    parseGo ([([Token.lit "cut".toList], "cut", ParamType.noneP)] ++
        ([Token.lit "save".toList], "save", ParamType.noneP) :: []) "save as x".toList =
      buildCommand "save" ParamType.noneP [] :=
  c2_first_match_in_table_order.1 [([Token.lit "cut".toList], "cut", ParamType.noneP)]
    [] [Token.lit "save".toList] "save" ParamType.noneP "save as x".toList []
    (by decide) (by decide)

/-- C3 counterexample: at the unrecognized utterance "blah", the `error`
field of the result is the string "Command not recognized" (capital C, as in
the source), not "command not recognized" as the claim states. -/
theorem c3_counterexample :
    (processCommand (fun _ => Except.ok { success := true, command := "blah" })
        { onExecuted := false, onError := false } none "blah").1.error ≠
      some "command not recognized" ∧
    (processCommand (fun _ => Except.ok { success := true, command := "blah" })
        { onExecuted := false, onError := false } none "blah").1.error =
      some "Command not recognized" := by
  constructor
  · decide
  · decide

/-- C3 (amended): for every nonempty normalized utterance that matches no
pattern in the table, `process_command` returns `success = false`, `command`
equal to the normalized utterance, and error "Command not recognized"; the
executor is not invoked for that utterance (the only observable event is the
parser call). -/
theorem c3_unrecognized_returns_failure
    (execFn : ParsedCommand → Except String CommandResult)
    (cbs : Callbacks) (last : Option String) (transcription : String)
    (hne : normalize transcription ≠ "")
    (hp : parse (normalize transcription) = none) :
    processCommand execFn cbs last transcription =
      ({ success := false, command := normalize transcription,
         error := some "Command not recognized" }, last,
        [Event.parseCall (normalize transcription)]) := by
  simp only [processCommand, processCommandG]
  rw [if_neg hne, hp]

theorem c3_witness :
    processCommand (fun _ => Except.ok { success := true, command := "blah" })
      { onExecuted := true, onError := true } none "blah" =
      ({ success := false, command := normalize "blah",
         error := some "Command not recognized" }, none,
        [Event.parseCall (normalize "blah")]) :=
  c3_unrecognized_returns_failure _ _ none "blah" (by decide) (by decide)

/-- C4 counterexample: at the all-whitespace input "   ", the `error` field
of the result is the string "Empty transcription" (capital E, as in the
source), not "empty transcription" as the claim states. -/
theorem c4_counterexample :
    (processCommand (fun _ => Except.ok { success := true, command := "" })
        { onExecuted := false, onError := false } none "   ").1.error ≠
      some "empty transcription" ∧
    (processCommand (fun _ => Except.ok { success := true, command := "" })
        { onExecuted := false, onError := false } none "   ").1.error =
      some "Empty transcription" := by
  constructor
  · decide
  · decide

/-- C4 (amended): for every input that is empty or consists only of
whitespace, `process_command` returns `success = false`, `command` equal to
the empty string, and error "Empty transcription"; neither the parser nor
the executor is invoked (the observable event list is empty). -/
theorem c4_empty_input_short_circuits
    (execFn : ParsedCommand → Except String CommandResult)
    (cbs : Callbacks) (last : Option String) (transcription : String)
    (h : normalize transcription = "") :
    processCommand execFn cbs last transcription =
      ({ success := false, command := "", error := some "Empty transcription" },
        last, []) := by
  simp only [processCommand, processCommandG]
  rw [if_pos h]

theorem c4_witness :
    processCommand (fun _ => Except.ok { success := true, command := "" })
      { onExecuted := true, onError := true } none "   " =
      ({ success := false, command := "", error := some "Empty transcription" },
        none, []) :=
  c4_empty_input_short_circuits _ _ none "   " (by decide)

/-- C5: parsing "go to line 42" yields action `goto_line` with
`line_number = 42`; parsing "go to line abc" yields none; and whenever a
line-number capture fails integer conversion, the pattern loop returns none
for the whole utterance (no exception and no partial command). -/
theorem c5_goto_line_number_conversion :
    parse "go to line 42" = some { action := "goto_line", line_number := some 42 } ∧
    parse "go to line abc" = none ∧
    (∀ (pre post : List Entry) (pat : List Token) (act : String)
      (cs : List Char) (c : String) (caps : List String),
      (∀ e ∈ pre, matchTokens e.1 cs = none) →
      matchTokens pat cs = some (c :: caps) →
      toInt? c = none →
      parseGo (pre ++ (pat, act, ParamType.lineNumber) :: post) cs = none) := by
  refine ⟨by decide, by decide, ?_⟩
  intro pre post pat act cs c caps hpre hm hc
  rw [parseGo_append_of_none pre _ cs hpre]
  simp only [parseGo]
  rw [hm]
  simp [buildCommand, hc]

theorem c5_witness :
    parseGo ([] ++ ([Token.anyPlus], "goto_line", ParamType.lineNumber) :: [])
      "abc".toList = none :=
  c5_goto_line_number_conversion.2.2 [] [] [Token.anyPlus] "goto_line"
    "abc".toList "abc" [] (by decide) (by decide) (by decide)

/-- C6: parsing "rename foo to bar" yields a `ParsedCommand` with action
`rename`, `target = "foo"` and `value = "bar"` (the target-and-value shape
populating capture groups 1 and 2 into target and value respectively). -/
theorem c6_rename_target_and_value :
    parse "rename foo to bar" =
      some { action := "rename", target := some "foo", value := some "bar" } := by
  decide

/-- C7: once the executor has been invoked and returned a result,
`last_command` is set to the normalized transcript unconditionally —
regardless of the result's `success` flag — and the `setLast` event is
observable in the call's event trace. -/
theorem c7_last_command_recorded
    (execFn : ParsedCommand → Except String CommandResult)
    (cbs : Callbacks) (last : Option String) (transcription : String)
    (p : ParsedCommand) (result : CommandResult)
    (hp : parse (normalize transcription) = some p)
    (he : execFn p = Except.ok result) :
    (processCommand execFn cbs last transcription).2.1 =
        some (normalize transcription) ∧
    Event.setLast (normalize transcription) ∈
      (processCommand execFn cbs last transcription).2.2 := by
  have hne : normalize transcription ≠ "" := by
    intro h0
    rw [h0, parse_nil] at hp
    exact Option.noConfusion hp
  simp only [processCommand, processCommandG]
  rw [if_neg hne, hp]
  dsimp only
  rw [he]
  constructor
  · rfl
  · simp

theorem c7_witness :
    (processCommand
        (fun _ => Except.ok { success := false, command := "undo", error := some "nope" })
        { onExecuted := false, onError := false } none "undo").2.1 =
      some (normalize "undo") ∧
    Event.setLast (normalize "undo") ∈
      (processCommand
        (fun _ => Except.ok { success := false, command := "undo", error := some "nope" })
        { onExecuted := false, onError := false } none "undo").2.2 :=
  c7_last_command_recorded _ _ none "undo" { action := "undo" }
    { success := false, command := "undo", error := some "nope" } (by decide) rfl

/-- C8 counterexample: both callback slots are `Optional` and default to
`None`; with neither registered, the executor returns a (successful) result
yet zero notification callbacks fire — refuting "exactly one of the two
notification callbacks fires". -/
theorem c8_counterexample :
    (processCommand (fun _ => Except.ok { success := true, command := "undo" })
        { onExecuted := false, onError := false } none "undo").1.success = true ∧
    Event.execCall { action := "undo" } ∈
      (processCommand (fun _ => Except.ok { success := true, command := "undo" })
        { onExecuted := false, onError := false } none "undo").2.2 ∧
    ((processCommand (fun _ => Except.ok { success := true, command := "undo" })
        { onExecuted := false, onError := false } none "undo").2.2.countP
      (fun e => match e with
        | Event.cbSuccess _ _ => true
        | Event.cbError _ _ => true
        | _ => false)) = 0 := by
  refine ⟨by decide, by decide, by decide⟩

/-- C8 (amended): when both callback slots are registered and the executor
returns a result, exactly one notification callback fires — the success
callback with (transcript, data-or-empty) when `success` is true, the error
callback with (transcript, error-or-default) when `success` is false — each
at most once, after `last_command` has been updated and before
`process_command` returns (the event trace is exactly parser call, executor
call, `setLast`, then the single callback).  The payloads follow Python's
truthiness: a `None` or empty data dict becomes the empty dict, a `None` or
empty error string becomes "Unknown error". -/
theorem c8_exactly_one_callback
    (execFn : ParsedCommand → Except String CommandResult)
    (last : Option String) (transcription : String)
    (p : ParsedCommand) (result : CommandResult)
    (hp : parse (normalize transcription) = some p)
    (he : execFn p = Except.ok result) :
    processCommand execFn { onExecuted := true, onError := true } last transcription =
      (result, some (normalize transcription),
        [Event.parseCall (normalize transcription), Event.execCall p,
         Event.setLast (normalize transcription),
         if result.success then
           Event.cbSuccess (normalize transcription) (pyOrDict result.data [])
         else
           Event.cbError (normalize transcription) (pyOrStr result.error "Unknown error")]) := by
  have hne : normalize transcription ≠ "" := by
    intro h0
    rw [h0, parse_nil] at hp
    exact Option.noConfusion hp
  simp only [processCommand, processCommandG]
  rw [if_neg hne, hp]
  dsimp only
  rw [he]
  cases hr : result.success <;> simp [hr]

theorem c8_witness :
    processCommand
        (fun _ => Except.ok { success := false, command := "undo", error := some "bad" })
        { onExecuted := true, onError := true } none "undo" =
      ({ success := false, command := "undo", error := some "bad" },
        some (normalize "undo"),
        [Event.parseCall (normalize "undo"), Event.execCall { action := "undo" },
         Event.setLast (normalize "undo"),
         if ({ success := false, command := "undo",
               error := some "bad" } : CommandResult).success then
           Event.cbSuccess (normalize "undo")
             (pyOrDict
               ({ success := false, command := "undo",
                  error := some "bad" } : CommandResult).data [])
         else
           Event.cbError (normalize "undo")
             (pyOrStr
               ({ success := false, command := "undo",
                  error := some "bad" } : CommandResult).error "Unknown error")]) :=
  c8_exactly_one_callback _ none "undo" { action := "undo" }
    { success := false, command := "undo", error := some "bad" } (by decide) rfl

/-- C9: every `ParsedCommand` produced by `parse` satisfies the parameter
shape invariant: at most one of \x7btarget alone, value alone, line_number,
both target and value\x7d is populated, and the `parameters` mapping is
empty. -/
theorem c9_param_shape_invariant (text : String) (cmd : ParsedCommand)
    (h : parse text = some cmd) : ShapeOK cmd :=
  parseGo_shape PATTERNS (normalize text).toList cmd h

theorem c9_witness :
    parse "go to line 42" = some { action := "goto_line", line_number := some 42 } ∧
    ShapeOK { action := "goto_line", line_number := some 42 } :=
  ⟨by decide, c9_param_shape_invariant "go to line 42"
    { action := "goto_line", line_number := some 42 } (by decide)⟩

/-- C10 counterexample: the utterance "save as notes.txt" begins with (in
fact, consists of) characters matched by the table entry "save as (.+)",
yet `parse` returns the action `save` of the earlier entry "save", not that
pattern's action `save_as` — refuting the claim's universal "parse returns
that pattern's action". -/
theorem c10_counterexample :
    ([Token.lit "save as ".toList, Token.anyPlus], "save_as", ParamType.value) ∈ PATTERNS ∧
    (matchTokens [Token.lit "save as ".toList, Token.anyPlus]
      "save as notes.txt".toList).isSome = true ∧
    (parse "save as notes.txt").map ParsedCommand.action = some "save" ∧
    "save" ≠ "save_as" := by
  refine ⟨by decide, by decide, by decide, by decide⟩

/-- C10 (amended): pattern matching only requires the pattern to match a
prefix of the normalized utterance — there is no end anchor and no word
boundary, so appending trailing text never destroys a match — and an
utterance beginning "undoing" parses to action `undo` because the pattern
"undo" matches its first four characters; when several patterns match a
prefix, `parse` returns the action of the first matching entry in table
order (see C2), not necessarily the given pattern's action. -/
theorem c10_matching_ignores_trailing_text :
    (∀ (toks : List Token) (cs s : List Char),
      (matchTokens toks cs).isSome = true →
      (matchTokens toks (cs ++ s)).isSome = true) ∧
    parse "undoing" = some { action := "undo" } :=
  ⟨matchTokens_isSome_append, by decide⟩

theorem c10_witness :
    (matchTokens [Token.lit "undo".toList] ("undo".toList ++ "ing".toList)).isSome = true :=
  c10_matching_ignores_trailing_text.1 [Token.lit "undo".toList]
    "undo".toList "ing".toList (by decide)

end Serenade
